import Mathlib

/-!
Verification of the Lead Quality & Deduplication Engine of the lead-nexus
backend, as a shallow embedding in Lean 4.

Python floats are modelled as `Rat` (all constants appearing in the code are
small decimals, and no claim hinges on binary floating-point rounding), and
Python exceptions as `Except PyExn`.  Dynamically-typed lead fields are
modelled by `PyField`, which can be `none` (Python `None`), a string, or a
`malformed` value on which string methods raise `AttributeError`.
-/

deriving instance DecidableEq for Except

/-- Python exception kinds that the embedded code can raise. -/
inductive PyExn where
  | attrError
  | keyError
deriving DecidableEq, Repr

/-- A dynamically typed field value: `None`, a string, or a non-string,
non-`None` value (`malformed`) on which string methods raise. -/
inductive PyField where
  | none
  | str (s : String)
  | malformed
deriving DecidableEq, Repr

/-- Python `s.lower()` (ASCII, which covers every constant in the code);
list-based so that it reduces in the kernel. -/
def strLower (s : String) : String := String.mk (s.toList.map Char.toLower)

/-- Python `s.split(c)` for a one-character separator; `splitOnChar c ""`
is `[""]`, as in Python. -/
def splitOnChar (c : Char) : List Char → List (List Char)
  | [] => [[]]
  | x :: xs =>
    if x = c then [] :: splitOnChar c xs
    else match splitOnChar c xs with
      | [] => [[x]]
      | h :: t => (x :: h) :: t

/-- Python `x or ""`: falsy values (`None`, `""`) become `""`. -/
def pyOrEmpty : PyField → PyField
  | .none => .str ""
  | .str s => .str s
  | .malformed => .malformed

/-- Python `x.lower()`: succeeds on strings, raises `AttributeError` otherwise. -/
def pyLower : PyField → Except PyExn String
  | .str s => .ok (strLower s)
  | _ => .error .attrError

/-- Python truthiness of a field value. -/
def pyTruthy : PyField → Bool
  | .none => false
  | .str s => s != ""
  | .malformed => true

/-- Python `x != "Unknown"` (comparison with a string never raises; a
non-string value is simply unequal). -/
def pyNeUnknownStr : PyField → Bool
  | .none => true
  | .str s => s != "Unknown"
  | .malformed => true

/-- Python `needle in hay` substring test. -/
def containsSub (needle hay : String) : Bool :=
  (List.range (hay.toList.length + 1)).any
    (fun i => needle.toList.isPrefixOf (hay.toList.drop i))

/-- Characters of `s` strictly before the first occurrence of `c`
(Python `s.split(c)[0]`). -/
def strBefore (c : Char) (s : String) : String :=
  String.mk (s.toList.takeWhile (fun x => x != c))

/-- Characters of `s` strictly after the first occurrence of `c`
(Python `s.split(c)[1]` when `c` occurs exactly once). -/
def strAfter (c : Char) (s : String) : String :=
  String.mk ((s.toList.dropWhile (fun x => x != c)).drop 1)

/-- Python `round(x, 2)` (exact-rational model; no claim depends on the
half-even tie rule, every rounded value in scope is an exact multiple
of 1/100). -/
def roundTo2 (x : Rat) : Rat := ((x * 100 + 1/2).floor : ℤ) / 100

/-- `Rat.floor` agrees with the floor of the `FloorRing` instance. -/
theorem ratFloor_eq_intFloor (q : ℚ) : q.floor = ⌊q⌋ := by
  rw [Rat.floor_def, Rat.floor_def']

/-!
## `app/services/ml_lead_scoring.py`
-/

/-- The lead shape consumed by `extract_features` / `calculate_lead_score`
(fields of `app.models.Lead` that the scorer touches). -/
structure MlLead where
  job_title : PyField
  company_name : PyField
  location : PyField
  domain : PyField
  email : PyField
deriving DecidableEq, Repr

/-- `seniority_keywords` dict of `extract_features`, in insertion order. -/
def seniority_keywords : List (String × Rat) :=
  [("ceo", 3), ("cto", 3), ("cfo", 3), ("president", 3),
   ("director", 2), ("vp", 2), ("vice president", 2), ("head of", 2),
   ("manager", 1), ("senior", 1), ("lead", 1), ("principal", 1)]

/-- `premium_domains` of `extract_features`. -/
def premium_domains : List String := [".com", ".io", ".co", ".ai", ".tech"]

/-- `major_cities` of `extract_features`. -/
def major_cities : List String :=
  ["new york", "san francisco", "london", "boston", "seattle",
   "austin", "los angeles", "chicago", "denver", "atlanta",
   "toronto", "vancouver", "sydney", "melbourne"]

/-- `extract_features(lead)`: the five-feature vector.  The seniority loop
`break`s on the first matching keyword, so it is the first match in dict
order (`find?`).  Errors model `AttributeError` on malformed fields. -/
def extract_features (lead : MlLead) : Except PyExn (List Rat) :=
  match pyLower (pyOrEmpty lead.job_title) with
  | .error e => .error e
  | .ok job_title_lower =>
  match pyLower (pyOrEmpty lead.company_name) with
  | .error e => .error e
  | .ok company_name_lower =>
  match (if pyTruthy lead.location then pyLower (pyOrEmpty lead.location) else .ok "") with
  | .error e => .error e
  | .ok location_lower =>
  match (if pyTruthy lead.domain then pyLower (pyOrEmpty lead.domain) else .ok "") with
  | .error e => .error e
  | .ok domain_lower =>
  match pyLower (pyOrEmpty lead.email) with
  | .error e => .error e
  | .ok email_lower =>
    let seniority_score : Rat :=
      ((seniority_keywords.find? (fun kv => containsSub kv.1 job_title_lower)).map (·.2)).getD 0
    let domain_score : Rat :=
      if premium_domains.any (fun d => containsSub d domain_lower) then 1 else 0.5
    let location_score : Rat :=
      if major_cities.any (fun c => containsSub c location_lower) then 1 else 0.5
    let email_local : String :=
      if containsSub "@" email_lower then strBefore '@' email_lower else ""
    let email_score : Rat :=
      if containsSub "." email_local && (splitOnChar '.' email_local.toList).length == 2 then 1
      else if email_local != "" && decide (3 < email_local.length) then 0.7
      else 0.5
    let company_length := company_name_lower.length
    let company_length_score : Rat :=
      if 15 < company_length then 1 else if 8 < company_length then 0.7 else 0.5
    .ok [seniority_score, domain_score, location_score, email_score, company_length_score]

/-- Feature weights of `calculate_lead_score`. -/
def mlWeights : List Rat := [25, 15, 15, 20, 10]

/-- The `try` part of `calculate_lead_score`: weighted sum over
`zip(features, weights)`, completeness bonus, clamp to [0, 100],
round to 2 decimals. -/
def calculate_lead_score_body (lead : MlLead) : Except PyExn Rat :=
  match extract_features lead with
  | .error e => .error e
  | .ok features =>
    let score : Rat := (features.zip mlWeights).foldl (fun acc fw => acc + fw.1 * fw.2) 0
    let completeness_bonus : Rat :=
      (if pyTruthy lead.location then 5 else 0) +
      (if pyTruthy lead.domain then 5 else 0) +
      (if pyTruthy lead.job_title && pyNeUnknownStr lead.job_title then 5 else 0)
    .ok (roundTo2 (max 0 (min 100 (score + completeness_bonus))))

/-- The `try` part of `simple_lead_score`: base 50, senior-title bonus,
`.com`-domain bonus, location bonus, capped at 100. -/
def simple_lead_score_body (lead : MlLead) : Except PyExn Rat :=
  match pyLower (pyOrEmpty lead.job_title) with
  | .error e => .error e
  | .ok job_title_lower =>
    let score : Rat :=
      if ["ceo", "cto", "cfo", "director", "president"].any
          (fun kw => containsSub kw job_title_lower) then 50 + 20
      else if ["manager", "senior", "vp", "head"].any
          (fun kw => containsSub kw job_title_lower) then 50 + 10
      else 50
    match (if pyTruthy lead.domain then
            (match pyLower lead.domain with
             | .error e => .error e
             | .ok dl => .ok (if containsSub ".com" dl then score + 10 else score))
           else .ok score : Except PyExn Rat) with
    | .error e => .error e
    | .ok score2 =>
      let score3 : Rat := if pyTruthy lead.location then score2 + 5 else score2
      .ok (min score3 100)

/-- `simple_lead_score(lead)`: the fallback scorer; its own catch-all
returns 50.0. -/
def simple_lead_score (lead : MlLead) : Except PyExn Rat :=
  match simple_lead_score_body lead with
  | .ok s => .ok s
  | .error _ => .ok 50

/-- `calculate_lead_score(lead)`: the ML-path scorer; any exception falls
back to `simple_lead_score`. -/
def calculate_lead_score (lead : MlLead) : Except PyExn Rat :=
  match calculate_lead_score_body lead with
  | .ok s => .ok s
  | .error _ => simple_lead_score lead

/-- The §8 end-to-end scenario lead. -/
def acmeLead : MlLead :=
  { job_title := .str "CEO"
    company_name := .str "Acme Technologies International"
    location := .str "Austin"
    domain := .str "acme.io"
    email := .str "john.doe@acme.io" }

/-- Rounding an integer value to two decimals leaves it unchanged. -/
theorem roundTo2_intCast (n : ℤ) : roundTo2 (n : ℚ) = n := by
  unfold roundTo2
  rw [ratFloor_eq_intFloor]
  have h : ⌊(n : ℚ) * 100 + 1 / 2⌋ = n * 100 := by
    rw [Int.floor_eq_iff]
    push_cast
    constructor <;> linarith
  rw [h]
  push_cast
  field_simp

/-- The feature vector of the §8 scenario lead. -/
theorem acme_features : extract_features acmeLead = .ok [3, 1, 1, 1, 1] := by decide

/-- The score of the §8 scenario lead. -/
theorem acme_score : calculate_lead_score acmeLead = .ok 100 := by
  have h1 : pyTruthy acmeLead.location = true := by decide
  have h2 : pyTruthy acmeLead.domain = true := by decide
  have h3 : (pyTruthy acmeLead.job_title && pyNeUnknownStr acmeLead.job_title) = true := by decide
  unfold calculate_lead_score calculate_lead_score_body
  simp only [acme_features, h1, h2, h3, mlWeights, List.zip_cons_cons, List.zip_nil_right,
    List.foldl_cons, List.foldl_nil, if_true]
  have hclamp : max (0:ℚ) (min 100 (0 + 3 * 25 + 1 * 15 + 1 * 15 + 1 * 20 + 1 * 10 + (5 + 5 + 5)))
      = ((100 : ℤ) : ℚ) := by
    rw [max_def, min_def]
    norm_num
  rw [hclamp, roundTo2_intCast]
  norm_num

/-- `roundTo2` stays inside `[0, 100]`. -/
theorem roundTo2_bounds {x : ℚ} (h0 : 0 ≤ x) (h1 : x ≤ 100) :
    0 ≤ roundTo2 x ∧ roundTo2 x ≤ 100 := by
  unfold roundTo2
  rw [ratFloor_eq_intFloor]
  have hlo : (0 : ℤ) ≤ ⌊x * 100 + 1 / 2⌋ := by
    rw [Int.le_floor]
    push_cast
    linarith
  have hhi : ⌊x * 100 + 1 / 2⌋ ≤ 10000 := by
    have h : ⌊x * 100 + 1 / 2⌋ < 10001 := by
      rw [Int.floor_lt]
      push_cast
      linarith
    omega
  constructor
  · apply div_nonneg _ (by norm_num)
    exact_mod_cast hlo
  · rw [div_le_iff₀ (by norm_num : (0:ℚ) < 100)]
    have h2 : ((⌊x * 100 + 1 / 2⌋ : ℤ) : ℚ) ≤ ((10000 : ℤ) : ℚ) := by exact_mod_cast hhi
    norm_num at h2
    linarith

/-- `simple_lead_score` always returns a value in `[0, 100]` (in fact `[50, 100]`). -/
theorem simple_lead_score_bounds (lead : MlLead) (r : ℚ)
    (h : simple_lead_score lead = .ok r) : 0 ≤ r ∧ r ≤ 100 := by
  unfold simple_lead_score at h
  cases hs : simple_lead_score_body lead with
  | error e =>
    rw [hs] at h
    injection h with h
    subst h
    norm_num
  | ok s =>
    rw [hs] at h
    injection h with h
    subst h
    unfold simple_lead_score_body at hs
    cases hjt : pyLower (pyOrEmpty lead.job_title) with
    | error e => rw [hjt] at hs; cases hs
    | ok jtl =>
      rw [hjt] at hs
      set score : ℚ :=
        if ["ceo", "cto", "cfo", "director", "president"].any
            (fun kw => containsSub kw jtl) then 50 + 20
        else if ["manager", "senior", "vp", "head"].any
            (fun kw => containsSub kw jtl) then 50 + 10
        else 50 with hscore_def
      have hscore : (50 : ℚ) ≤ score := by
        rw [hscore_def]
        split_ifs <;> norm_num
      by_cases hdom : pyTruthy lead.domain = true
      · simp only [hdom, if_true] at hs
        cases hdl : pyLower lead.domain with
        | error e => rw [hdl] at hs; cases hs
        | ok dl =>
          rw [hdl] at hs
          injection hs with hs
          have h2 : (50 : ℚ) ≤ (if containsSub ".com" dl then score + 10 else score) := by
            split_ifs <;> linarith
          rw [← hs]
          constructor
          · apply le_min _ (by norm_num)
            split_ifs <;> linarith
          · exact min_le_right _ _
      · simp only [hdom, if_false, Bool.false_eq_true] at hs
        injection hs with hs
        rw [← hs]
        constructor
        · apply le_min _ (by norm_num)
          split_ifs <;> linarith
        · exact min_le_right _ _

/-- `calculate_lead_score` always returns a value in `[0, 100]`. -/
theorem calculate_lead_score_bounds (lead : MlLead) (r : ℚ)
    (h : calculate_lead_score lead = .ok r) : 0 ≤ r ∧ r ≤ 100 := by
  unfold calculate_lead_score at h
  cases hb : calculate_lead_score_body lead with
  | error e =>
    rw [hb] at h
    exact simple_lead_score_bounds lead r h
  | ok s =>
    rw [hb] at h
    injection h with h
    subst h
    unfold calculate_lead_score_body at hb
    cases hf : extract_features lead with
    | error e => rw [hf] at hb; cases hb
    | ok features =>
      rw [hf] at hb
      injection hb with hb
      rw [← hb]
      apply roundTo2_bounds
      · exact le_max_left _ _
      · exact max_le (by norm_num) (min_le_left _ _)

/-!
## `services/lead_scoring.py`: `_determine_quality_grade`
-/

/-- `_determine_quality_grade(overall_score)` (thresholds on the normalized
0–1 scale, as in the source). -/
def determine_quality_grade (overall_score : ℚ) : String :=
  if 0.85 ≤ overall_score then "A+"
  else if 0.8 ≤ overall_score then "A"
  else if 0.75 ≤ overall_score then "A-"
  else if 0.7 ≤ overall_score then "B+"
  else if 0.65 ≤ overall_score then "B"
  else if 0.6 ≤ overall_score then "B-"
  else if 0.55 ≤ overall_score then "C+"
  else if 0.5 ≤ overall_score then "C"
  else "D"

/-- Numeric rank of a letter grade, `"D"` lowest, `"A+"` highest. -/
def gradeRank : String → Nat
  | "A+" => 8
  | "A" => 7
  | "A-" => 6
  | "B+" => 5
  | "B" => 4
  | "B-" => 3
  | "C+" => 2
  | "C" => 1
  | _ => 0

set_option maxHeartbeats 2000000 in
/-- The grade buckets of `_determine_quality_grade`, as interval
characterizations. -/
theorem determine_quality_grade_spec (s : ℚ) :
    (determine_quality_grade s = "A+" ↔ 0.85 ≤ s) ∧
    (determine_quality_grade s = "A" ↔ 0.8 ≤ s ∧ s < 0.85) ∧
    (determine_quality_grade s = "A-" ↔ 0.75 ≤ s ∧ s < 0.8) ∧
    (determine_quality_grade s = "B+" ↔ 0.7 ≤ s ∧ s < 0.75) ∧
    (determine_quality_grade s = "B" ↔ 0.65 ≤ s ∧ s < 0.7) ∧
    (determine_quality_grade s = "B-" ↔ 0.6 ≤ s ∧ s < 0.65) ∧
    (determine_quality_grade s = "C+" ↔ 0.55 ≤ s ∧ s < 0.6) ∧
    (determine_quality_grade s = "C" ↔ 0.5 ≤ s ∧ s < 0.55) ∧
    (determine_quality_grade s = "D" ↔ s < 0.5) := by
  unfold determine_quality_grade
  split_ifs with h1 h2 h3 h4 h5 h6 h7 h8 <;>
    refine ⟨?_, ?_, ?_, ?_, ?_, ?_, ?_, ?_, ?_⟩ <;>
    constructor <;>
    intro hh <;>
    first
      | rfl
      | linarith
      | (exact absurd hh (by decide))
      | (constructor <;> linarith)

set_option maxHeartbeats 2000000 in
/-- `gradeRank ∘ determine_quality_grade` is monotone in the score. -/
theorem determine_quality_grade_mono (s t : ℚ) (h : s ≤ t) :
    gradeRank (determine_quality_grade s) ≤ gradeRank (determine_quality_grade t) := by
  unfold determine_quality_grade
  split_ifs <;> first | decide | linarith


/-- A lead whose `company_name` is a non-string value: feature extraction
raises, the simple fallback still succeeds. -/
def badLead : MlLead :=
  { job_title := .str "CEO"
    company_name := .malformed
    location := .str "NYC"
    domain := .str "x.com"
    email := .str "a@b.com" }

/-- On `badLead` the fallback path yields 50 + 20 + 10 + 5 = 85. -/
theorem badLead_simple_score : simple_lead_score badLead = .ok 85 := by
  have hjt : pyLower (pyOrEmpty badLead.job_title) = .ok "ceo" := by decide
  have hsen : (["ceo", "cto", "cfo", "director", "president"].any
      (fun kw => containsSub kw "ceo")) = true := by decide
  have hdom : pyTruthy badLead.domain = true := by decide
  have hdl : pyLower badLead.domain = .ok "x.com" := by decide
  have hcom : containsSub ".com" "x.com" = true := by decide
  have hloc : pyTruthy badLead.location = true := by decide
  unfold simple_lead_score simple_lead_score_body
  simp only [hjt, hsen, hdom, hdl, hcom, hloc, if_true]
  have h85 : min ((50 : ℚ) + 20 + 10 + 5) 100 = 85 := by
    rw [min_def]
    norm_num
  rw [h85]

/-- C2: for every lead record — including records with null or malformed
fields — `calculate_lead_score` returns a value and never raises to its
caller: an exception in the scoring body is replaced by
`simple_lead_score` (base 50 plus fixed bonuses), and an exception even
inside the fallback body is replaced by 50.0. -/
theorem C2_scoring_never_raises (lead : MlLead) :
    (∃ r : ℚ, calculate_lead_score lead = .ok r) ∧
    (∀ e, calculate_lead_score_body lead = .error e →
      calculate_lead_score lead = simple_lead_score lead) ∧
    (∀ e, simple_lead_score_body lead = .error e → simple_lead_score lead = .ok 50) := by
  refine ⟨?_, ?_, ?_⟩
  · unfold calculate_lead_score
    cases hb : calculate_lead_score_body lead with
    | ok s => exact ⟨s, rfl⟩
    | error e =>
      unfold simple_lead_score
      cases hs : simple_lead_score_body lead with
      | ok s => exact ⟨s, rfl⟩
      | error f => exact ⟨50, rfl⟩
  · intro e he
    unfold calculate_lead_score
    rw [he]
  · intro e he
    unfold simple_lead_score
    rw [he]

/-- C2 witness: on `badLead` (malformed `company_name`) the body raises
`AttributeError` and the result is the fallback score 85. -/
theorem C2_witness :
    calculate_lead_score_body badLead = .error .attrError ∧
    calculate_lead_score badLead = simple_lead_score badLead ∧
    simple_lead_score badLead = .ok 85 := by
  have hb : calculate_lead_score_body badLead = .error .attrError := by decide
  exact ⟨hb, (C2_scoring_never_raises badLead).2.1 .attrError hb, badLead_simple_score⟩

/-- C3: on the §8 scenario lead (CEO / acme.io / Austin /
john.doe@acme.io / Acme Technologies International) the feature vector is
exactly [3, 1, 1, 1, 1] and the score is exactly 100.0. -/
theorem C3_acme_scenario :
    extract_features acmeLead = .ok [3, 1, 1, 1, 1] ∧
    calculate_lead_score acmeLead = .ok 100 :=
  ⟨acme_features, acme_score⟩

/-- C4 counterexample: the claimed boundary example is false on the code —
a normalized score of 0.849 (84.9 on the 0–100 scale) receives grade "A",
not "A-". -/
theorem C4_counterexample :
    determine_quality_grade 0.849 = "A" ∧ ("A" : String) ≠ "A-" := by
  constructor
  · unfold determine_quality_grade
    have h1 : ¬ ((0.85 : ℚ) ≤ 0.849) := by norm_num
    have h2 : (0.8 : ℚ) ≤ 0.849 := by norm_num
    rw [if_neg h1, if_pos h2]
  · decide

/-- C4 (amended): every score returned by `calculate_lead_score` lies in
[0, 100]; `_determine_quality_grade` implements the threshold table on the
normalized scale (interval characterization) and is monotone; at the
boundary, 0.849 receives "A" (not "A-" as the spec example says) and 0.85
receives "A+". -/
theorem C4_score_bounds_and_grade :
    (∀ (lead : MlLead) (r : ℚ), calculate_lead_score lead = .ok r → 0 ≤ r ∧ r ≤ 100) ∧
    (∀ s t : ℚ, s ≤ t →
      gradeRank (determine_quality_grade s) ≤ gradeRank (determine_quality_grade t)) ∧
    (∀ s : ℚ,
      (determine_quality_grade s = "A+" ↔ 0.85 ≤ s) ∧
      (determine_quality_grade s = "A" ↔ 0.8 ≤ s ∧ s < 0.85) ∧
      (determine_quality_grade s = "A-" ↔ 0.75 ≤ s ∧ s < 0.8) ∧
      (determine_quality_grade s = "B+" ↔ 0.7 ≤ s ∧ s < 0.75) ∧
      (determine_quality_grade s = "B" ↔ 0.65 ≤ s ∧ s < 0.7) ∧
      (determine_quality_grade s = "B-" ↔ 0.6 ≤ s ∧ s < 0.65) ∧
      (determine_quality_grade s = "C+" ↔ 0.55 ≤ s ∧ s < 0.6) ∧
      (determine_quality_grade s = "C" ↔ 0.5 ≤ s ∧ s < 0.55) ∧
      (determine_quality_grade s = "D" ↔ s < 0.5)) ∧
    determine_quality_grade 0.849 = "A" ∧
    determine_quality_grade 0.85 = "A+" := by
  refine ⟨calculate_lead_score_bounds, determine_quality_grade_mono,
    determine_quality_grade_spec, ?_, ?_⟩
  · unfold determine_quality_grade
    have h1 : ¬ ((0.85 : ℚ) ≤ 0.849) := by norm_num
    have h2 : (0.8 : ℚ) ≤ 0.849 := by norm_num
    rw [if_neg h1, if_pos h2]
  · unfold determine_quality_grade
    rw [if_pos (by norm_num : (0.85 : ℚ) ≤ 0.85)]

/-- C4 witness: applying the bounds at the §8 lead (score 100) and
monotonicity at 0 ≤ 1. -/
theorem C4_witness :
    ((0 : ℚ) ≤ 100 ∧ (100 : ℚ) ≤ 100) ∧
    gradeRank (determine_quality_grade 0) ≤ gradeRank (determine_quality_grade 1) :=
  ⟨C4_score_bounds_and_grade.1 acmeLead 100 acme_score,
   C4_score_bounds_and_grade.2.1 0 1 (by norm_num)⟩


/-!
## `services/lead_validation.py`
-/

/-- `LeadValidationStatus` enum of `models.py`. -/
inductive LeadValidationStatus where
  | pending
  | validated
  | rejected
  | needs_review
deriving DecidableEq, Repr

/-- `ApprovalStatus` enum of `models.py`. -/
inductive ApprovalStatus where
  | pending
  | approved
  | rejected
  | under_review
deriving DecidableEq, Repr

/-- The raw field map consumed by `LeadValidator.validate_lead`.  Each string
field models `lead_data.get` with default "" (absent and empty agree on both the
default and truthiness); `price` models `lead_data.get` of the price key with default 0;
`extra_nonempty` models the truthiness of the extra blob. -/
structure LeadData where
  contact_email : String
  contact_phone : String
  company_name : String
  contact_name : String
  price : Rat
  industry : String
  location : String
  description : String
  extra_nonempty : Bool
deriving DecidableEq, Repr

/-- Character class `[a-zA-Z0-9._%+-]` of the email regex. -/
def emailLocalChar (c : Char) : Bool :=
  c.isAlpha || c.isDigit || c == '.' || c == '_' || c == '%' || c == '+' || c == '-'

/-- Character class `[a-zA-Z0-9.-]` of the email regex. -/
def emailDomChar (c : Char) : Bool :=
  c.isAlpha || c.isDigit || c == '.' || c == '-'

/-- Match of `[a-zA-Z0-9.-]+\.[a-zA-Z]\x7b2,\x7d$` against the whole
list: some split position gives a nonempty class run, a dot, and at least
two trailing letters. -/
def emailDomainMatch (l : List Char) : Bool :=
  (List.range l.length).any (fun p =>
    decide (1 ≤ p) && (l.take p).all emailDomChar &&
    (match l.drop p with
     | '.' :: t => decide (2 ≤ t.length) && t.all Char.isAlpha
     | _ => false))

/-- Full match of the the email validation-rule regex: since the
local-part class excludes `@`, the regex can only split at the first `@`. -/
def emailRegexMatch (email : String) : Bool :=
  let cs := email.toList
  let localRun := cs.takeWhile (fun c => c != '@')
  decide (localRun ≠ []) && localRun.all emailLocalChar &&
  decide (localRun.length < cs.length) &&
  emailDomainMatch (cs.drop (localRun.length + 1))

/-- Match of `[1-9][\d]\x7b0,15\x7d$` after the optional plus sign. -/
def phoneCore : List Char → Bool
  | [] => false
  | c :: ds =>
    decide ('1' ≤ c) && decide (c ≤ '9') && decide (ds.length ≤ 15) && ds.all Char.isDigit

/-- Full match of the the phone validation-rule regex
`^[\+]?[1-9][\d]\x7b0,15\x7d$`. -/
def phoneRegexMatch (l : List Char) : Bool :=
  match l with
  | '+' :: rest => phoneCore rest
  | _ => phoneCore l

/-- `_validate_email`: weight 0.15, quality 1.0 for business indicators,
0.5 for disposable domains, 0.8 otherwise. -/
def validate_email (email : String) : Rat × List String :=
  if email = "" then (0, ["Email is required"])
  else if emailRegexMatch email then
    let domain := strLower (strAfter '@' email)
    let disposable := ["temp-mail.org", "10minutemail.com", "guerrillamail.com"]
    let quality0 : Rat := if domain ∈ disposable then 0.5 else 0
    let issues := if domain ∈ disposable then ["Disposable email domain detected"] else []
    let business := ["info@", "contact@", "sales@", "hello@", "support@"]
    let quality : Rat :=
      if business.any (fun b => containsSub b (strLower email)) then 1
      else if quality0 = 0 then 0.8 else quality0
    (0.15 * quality, issues)
  else (0, ["Invalid email format"])

/-- `_validate_phone`: weight 0.10 after stripping to digits and plus signs. -/
def validate_phone (phone : String) : Rat × List String :=
  if phone = "" then (0, ["Phone number is required"])
  else
    let clean := phone.toList.filter (fun c => c.isDigit || c == '+')
    if phoneRegexMatch clean then (0.10, [])
    else (0, ["Invalid phone format"])

/-- `_validate_company_name`: weight 0.10, length in [2, 100]. -/
def validate_company_name (company_name : String) : Rat × List String :=
  if company_name = "" then (0, ["Company name is required"])
  else if 2 ≤ company_name.length ∧ company_name.length ≤ 100 then (0.10, [])
  else (0, ["Company name must be between 2 and 100 characters"])

/-- `_validate_contact_name`: weight 0.10, length in [2, 50]. -/
def validate_contact_name (contact_name : String) : Rat × List String :=
  if contact_name = "" then (0, ["Contact name is required"])
  else if 2 ≤ contact_name.length ∧ contact_name.length ≤ 50 then (0.10, [])
  else (0, ["Contact name must be between 2 and 50 characters"])

/-- `_validate_price`: weight 0.05, value in [10, 10000]. -/
def validate_price (price : Rat) : Rat × List String :=
  if 10 ≤ price ∧ price ≤ 10000 then (0.05, [])
  else (0, ["Price must be between $10.0 and $10000.0"])

/-- The accepted industries of the industry validation rule. -/
def valid_industries : List String :=
  ["technology", "healthcare", "finance", "education", "retail",
   "manufacturing", "real estate", "legal", "marketing",
   "food & beverage", "construction", "consulting", "non-profit", "e-commerce"]

/-- `_validate_industry`: weight 0.05, lowercased membership. -/
def validate_industry (industry : String) : Rat × List String :=
  if strLower industry ∈ valid_industries then (0.05, [])
  else (0, ["Industry must be one of the accepted categories"])

/-- `_validate_location`: weight 0.05, length in [3, 100]. -/
def validate_location (location : String) : Rat × List String :=
  if location = "" then (0, ["Location is required"])
  else if 3 ≤ location.length ∧ location.length ≤ 100 then (0.05, [])
  else (0, ["Location must be between 3 and 100 characters"])

/-- `_validate_description`: weight 0.10, length in [10, 1000]. -/
def validate_description (description : String) : Rat × List String :=
  if description = "" then (0, ["Description is required"])
  else if 10 ≤ description.length ∧ description.length ≤ 1000 then (0.10, [])
  else (0, ["Description must be between 10 and 1000 characters"])

/-- `_calculate_completeness_bonus`: 0.2 × required completion
+ 0.1 × optional completion (max 0.3). -/
def calculate_completeness_bonus (ld : LeadData) : Rat :=
  let required := [ld.contact_email, ld.contact_phone, ld.company_name,
    ld.contact_name, ld.location, ld.description]
  let completed_required := (required.filter (fun s => s != "")).length
  let completed_optional : Nat := if ld.extra_nonempty then 1 else 0
  ((completed_required : Rat) / 6) * 0.2 + ((completed_optional : Rat) / 1) * 0.1

/-- `LeadValidator.validate_lead`: composite score (clamped to at most 1.0)
and concatenated issue list; the per-field details blob is elided (no claim
mentions it). -/
def validate_lead (ld : LeadData) : Rat × List String :=
  let e := validate_email ld.contact_email
  let p := validate_phone ld.contact_phone
  let c := validate_company_name ld.company_name
  let n := validate_contact_name ld.contact_name
  let pr := validate_price ld.price
  let ind := validate_industry ld.industry
  let loc := validate_location ld.location
  let desc := validate_description ld.description
  let score := e.1 + p.1 + c.1 + n.1 + pr.1 + ind.1 + loc.1 + desc.1 +
    calculate_completeness_bonus ld
  (min score 1, e.2 ++ p.2 ++ c.2 ++ n.2 ++ pr.2 ++ ind.2 ++ loc.2 ++ desc.2)

/-- `determine_validation_status(score, issues)`. -/
def determine_validation_status (score : Rat) (issues : List String) : LeadValidationStatus :=
  if 0.8 ≤ score ∧ issues.length = 0 then .validated
  else if 0.6 ≤ score then .needs_review
  else .rejected

/-- `determine_approval_status(validation_status, score)`. -/
def determine_approval_status (validation_status : LeadValidationStatus) (score : Rat) :
    ApprovalStatus :=
  if validation_status = .validated ∧ 0.8 ≤ score then .approved
  else if validation_status = .rejected then .rejected
  else .under_review


theorem validate_email_nonneg (e : String) : 0 ≤ (validate_email e).1 := by
  unfold validate_email
  dsimp only
  split_ifs <;> norm_num

theorem validate_phone_nonneg (p : String) : 0 ≤ (validate_phone p).1 := by
  unfold validate_phone
  dsimp only
  split_ifs <;> norm_num

theorem validate_company_name_nonneg (s : String) : 0 ≤ (validate_company_name s).1 := by
  unfold validate_company_name
  split_ifs <;> norm_num

theorem validate_contact_name_nonneg (s : String) : 0 ≤ (validate_contact_name s).1 := by
  unfold validate_contact_name
  split_ifs <;> norm_num

theorem validate_price_nonneg (x : Rat) : 0 ≤ (validate_price x).1 := by
  unfold validate_price
  split_ifs <;> norm_num

theorem validate_industry_nonneg (s : String) : 0 ≤ (validate_industry s).1 := by
  unfold validate_industry
  split_ifs <;> norm_num

theorem validate_location_nonneg (s : String) : 0 ≤ (validate_location s).1 := by
  unfold validate_location
  split_ifs <;> norm_num

theorem validate_description_nonneg (s : String) : 0 ≤ (validate_description s).1 := by
  unfold validate_description
  split_ifs <;> norm_num

theorem calculate_completeness_bonus_nonneg (ld : LeadData) :
    0 ≤ calculate_completeness_bonus ld := by
  unfold calculate_completeness_bonus
  dsimp only
  positivity

/-- C5: `validate_lead` returns a composite score in [0, 1], and
`determine_validation_status` yields exactly one of the three derived
statuses, deterministically characterized by the score and the issue list:
`validated` iff score ≥ 0.8 with no issues, `needs_review` iff score ≥ 0.6
and not validated, `rejected` iff score < 0.6. -/
theorem C5_validate_score_and_status :
    (∀ ld : LeadData, 0 ≤ (validate_lead ld).1 ∧ (validate_lead ld).1 ≤ 1) ∧
    (∀ (score : Rat) (issues : List String),
      (determine_validation_status score issues = .validated ↔
        0.8 ≤ score ∧ issues = []) ∧
      (determine_validation_status score issues = .needs_review ↔
        0.6 ≤ score ∧ ¬(0.8 ≤ score ∧ issues = [])) ∧
      (determine_validation_status score issues = .rejected ↔ score < 0.6)) := by
  constructor
  · intro ld
    unfold validate_lead
    dsimp only
    refine ⟨le_min ?_ (by norm_num), min_le_right _ _⟩
    have h1 := validate_email_nonneg ld.contact_email
    have h2 := validate_phone_nonneg ld.contact_phone
    have h3 := validate_company_name_nonneg ld.company_name
    have h4 := validate_contact_name_nonneg ld.contact_name
    have h5 := validate_price_nonneg ld.price
    have h6 := validate_industry_nonneg ld.industry
    have h7 := validate_location_nonneg ld.location
    have h8 := validate_description_nonneg ld.description
    have h9 := calculate_completeness_bonus_nonneg ld
    linarith
  · intro score issues
    have hlen : issues.length = 0 ↔ issues = [] := List.length_eq_zero
    unfold determine_validation_status
    split_ifs with h1 h2
    · obtain ⟨h1a, h1b⟩ := h1
      rw [hlen] at h1b
      subst h1b
      refine ⟨?_, ?_, ?_⟩
      · simp [h1a]
      · constructor
        · intro hh
          exact absurd hh (by decide)
        · rintro ⟨h6, hn⟩
          exact absurd ⟨h1a, rfl⟩ hn
      · constructor
        · intro hh
          exact absurd hh (by decide)
        · intro hlt
          exfalso
          linarith
    · refine ⟨?_, ?_, ?_⟩
      · constructor
        · intro hh
          exact absurd hh (by decide)
        · rintro ⟨ha, hb⟩
          exact absurd ⟨ha, hlen.mpr hb⟩ h1
      · constructor
        · intro _
          exact ⟨h2, fun hc => h1 ⟨hc.1, hlen.mpr hc.2⟩⟩
        · intro _
          rfl
      · constructor
        · intro hh
          exact absurd hh (by decide)
        · intro hlt
          exfalso
          linarith
    · refine ⟨?_, ?_, ?_⟩
      · constructor
        · intro hh
          exact absurd hh (by decide)
        · rintro ⟨ha, hb⟩
          exact absurd ⟨ha, hlen.mpr hb⟩ h1
      · constructor
        · intro hh
          exact absurd hh (by decide)
        · rintro ⟨h6, _⟩
          exact absurd h6 h2
      · constructor
        · intro _
          exact not_le.mp h2
        · intro _
          rfl

/-- If the automated derivation yields `approved`, the validation status is
`validated` and the score is at least 0.8. -/
theorem determine_approval_status_approved_inv (vs : LeadValidationStatus) (s : Rat)
    (h : determine_approval_status vs s = .approved) : vs = .validated ∧ 0.8 ≤ s := by
  unfold determine_approval_status at h
  split_ifs at h with h1 h2
  exact h1


/-!
## `routes/workflows.py`: approval state machine

Session semantics: attribute mutations and `db.add(...)` are staged in the
session; `NotificationService.create_notification` runs `db.commit()` itself
(committing every staged change together with the new notification row); if
the notification dispatch raises, the catch-all of the handler returns HTTP 500
and `db.close()` discards the uncommitted staged changes.  `notifyRaises`
models whether the dispatch raises; `role` is the role of the authenticated
caller.
-/

/-- A `LeadApproval` audit row. -/
structure ApprovalRec where
  lead_id : Nat
  approver_id : Nat
  status : String
  notes : String
deriving DecidableEq, Repr

/-- The fields of a `models.py` `Lead` row that the approval workflow reads
or writes. -/
structure WfLead where
  vendor_id : Nat
  title : String
  validation_status : LeadValidationStatus
  validation_score : Rat
  approval_status : ApprovalStatus
  status : String
deriving DecidableEq, Repr

/-- Committed database state seen by the workflow routes. -/
structure WfDb where
  leads : List (Nat × WfLead)
  approvals : List ApprovalRec
  notifications : List (Nat × String)
deriving DecidableEq, Repr

/-- `db.query(Lead).filter(Lead.id == lead_id).first()`. -/
def dbLookup (leads : List (Nat × WfLead)) (i : Nat) : Option WfLead :=
  (leads.find? (fun e => e.1 == i)).map (fun e => e.2)

/-- Staging an attribute update on the row with id `i`. -/
def dbUpdate : List (Nat × WfLead) → Nat → WfLead → List (Nat × WfLead)
  | [], _, _ => []
  | e :: rest, i, l => (if e.1 == i then (e.1, l) else e) :: dbUpdate rest i l

/-- `approve_lead(lead_id)`: 404 when the lead is missing, 403 for a
non-admin/moderator caller; otherwise stages `approval_status = approved`,
`status = available` and a new `LeadApproval` row, then dispatches the
vendor notification (whose `create_notification` commits the session).  A
raising dispatch is caught, HTTP 500 is returned, and the staged changes
are discarded on `db.close()`. -/
def approve_lead (notifyRaises : Bool) (role : String) (db : WfDb)
    (lead_id approver_id : Nat) (notes : String) : Nat × WfDb :=
  match dbLookup db.leads lead_id with
  | none => (404, db)
  | some lead =>
    if role != "admin" && role != "moderator" then (403, db)
    else
      let staged : WfDb :=
        { leads := dbUpdate db.leads lead_id
            { lead with approval_status := .approved, status := "available" }
          approvals := db.approvals ++
            [{ lead_id := lead_id, approver_id := approver_id,
               status := "approved", notes := notes }]
          notifications := db.notifications }
      if notifyRaises then (500, db)
      else (200, { staged with
        notifications := staged.notifications ++ [(lead.vendor_id, "lead_approved")] })

/-- `reject_lead(lead_id)`: like `approve_lead` but stages
`approval_status = rejected`, `status = pending` and a rejection audit row,
and dispatches the rejection notification. -/
def reject_lead (notifyRaises : Bool) (role : String) (db : WfDb)
    (lead_id approver_id : Nat) (reason : String) : Nat × WfDb :=
  match dbLookup db.leads lead_id with
  | none => (404, db)
  | some lead =>
    if role != "admin" && role != "moderator" then (403, db)
    else
      let staged : WfDb :=
        { leads := dbUpdate db.leads lead_id
            { lead with approval_status := .rejected, status := "pending" }
          approvals := db.approvals ++
            [{ lead_id := lead_id, approver_id := approver_id,
               status := "rejected", notes := reason }]
          notifications := db.notifications }
      if notifyRaises then (500, db)
      else (200, { staged with
        notifications := staged.notifications ++ [(lead.vendor_id, "lead_rejected")] })

/-- Updating a present row makes the lookup return the new value. -/
theorem dbLookup_dbUpdate (leads : List (Nat × WfLead)) (i : Nat) (l x : WfLead)
    (h : dbLookup leads i = some x) : dbLookup (dbUpdate leads i l) i = some l := by
  induction leads with
  | nil => simp [dbLookup] at h
  | cons e rest ih =>
    by_cases he : (e.1 == i) = true
    · unfold dbLookup dbUpdate
      rw [if_pos he,
        @List.find?_cons_of_pos _ (fun z => z.1 == i) (e.1, l) (dbUpdate rest i l) he]
      rfl
    · unfold dbLookup at h
      rw [@List.find?_cons_of_neg _ (fun z => z.1 == i) e rest he] at h
      unfold dbLookup dbUpdate
      rw [if_neg he, @List.find?_cons_of_neg _ (fun z => z.1 == i) e (dbUpdate rest i l) he]
      exact ih h

/-- A pending lead used for the witnesses. -/
def wfLead0 : WfLead :=
  { vendor_id := 7, title := "t", validation_status := .validated,
    validation_score := 1, approval_status := .pending, status := "pending" }

/-- A one-lead committed state. -/
def wfDb0 : WfDb := { leads := [(1, wfLead0)], approvals := [], notifications := [] }

/-- A lead whose automated validation rejected it. -/
def rejLead : WfLead :=
  { vendor_id := 7, title := "x", validation_status := .rejected,
    validation_score := 0, approval_status := .rejected, status := "pending" }

/-- A one-lead committed state holding the validation-rejected lead. -/
def rejDb : WfDb := { leads := [(1, rejLead)], approvals := [], notifications := [] }


/-- C1 counterexample: the claim fails on the operator path — `approve_lead`
on a lead whose `validation_status` is `rejected` succeeds and yields
`approval_status = approved` while `validation_status` stays `rejected`. -/
theorem C1_counterexample :
    rejLead.validation_status = .rejected ∧
    (approve_lead false "admin" rejDb 1 2 "ok").1 = 200 ∧
    dbLookup (approve_lead false "admin" rejDb 1 2 "ok").2.leads 1 =
      some { rejLead with approval_status := .approved, status := "available" } ∧
    ({ rejLead with approval_status := .approved, status := "available" } :
      WfLead).validation_status = .rejected := by
  decide

/-- C1 (amended): the invariant holds for the automated derivation —
`determine_approval_status` returns `approved` only for a `validated` status
with score at least 0.8 — but the operator endpoint `approve_lead` performs
no validation check: on any found lead (admin caller, successful
notification) it unconditionally sets `approval_status = approved` and
`status = available`, leaving `validation_status` untouched, so a
validation-rejected lead can reach `approval_status = approved`. -/
theorem C1_automated_invariant_operator_unchecked :
    (∀ (vs : LeadValidationStatus) (s : Rat),
      determine_approval_status vs s = .approved → vs = .validated ∧ 0.8 ≤ s) ∧
    (∀ (db : WfDb) (i a : Nat) (notes : String) (l : WfLead),
      dbLookup db.leads i = some l →
        (approve_lead false "admin" db i a notes).1 = 200 ∧
        dbLookup (approve_lead false "admin" db i a notes).2.leads i =
          some { l with approval_status := .approved, status := "available" }) := by
  constructor
  · exact determine_approval_status_approved_inv
  · intro db i a notes l h
    have hrole : (("admin" != "admin") && ("admin" != "moderator")) = false := by decide
    unfold approve_lead
    rw [h]
    dsimp only
    simp only [hrole, Bool.false_eq_true, if_false]
    exact ⟨trivial, dbLookup_dbUpdate db.leads i _ l h⟩

/-- C1 witness: the automated invariant at (`validated`, score 1) and the
operator transition on the concrete one-lead state. -/
theorem C1_witness :
    (LeadValidationStatus.validated = .validated ∧ (0.8 : ℚ) ≤ 1) ∧
    ((approve_lead false "admin" wfDb0 1 2 "ok").1 = 200 ∧
      dbLookup (approve_lead false "admin" wfDb0 1 2 "ok").2.leads 1 =
        some { wfLead0 with approval_status := .approved, status := "available" }) := by
  refine ⟨C1_automated_invariant_operator_unchecked.1 .validated 1 ?_,
    C1_automated_invariant_operator_unchecked.2 wfDb0 1 2 "ok" wfLead0 (by decide)⟩
  unfold determine_approval_status
  rw [if_pos ⟨rfl, by norm_num⟩]

/-- C8 (code bug): the notification dispatch runs before the commit of
the handler; when the dispatch raises, the catch-all of the handler returns HTTP 500
and the staged `approval_status`/`status` update and the new `LeadApproval`
row are discarded on close — the transition is not committed, contrary to
the fire-and-forget requirement.  With a non-raising dispatch the
transition does commit. -/
theorem C8_notify_failure_discards_transition :
    approve_lead true "admin" wfDb0 1 2 "ok" = (500, wfDb0) ∧
    reject_lead true "admin" wfDb0 1 2 "bad" = (500, wfDb0) ∧
    (approve_lead false "admin" wfDb0 1 2 "ok").1 = 200 ∧
    dbLookup (approve_lead false "admin" wfDb0 1 2 "ok").2.leads 1 =
      some { wfLead0 with approval_status := .approved, status := "available" } ∧
    (approve_lead false "admin" wfDb0 1 2 "ok").2.approvals =
      [{ lead_id := 1, approver_id := 2, status := "approved", notes := "ok" }] := by
  decide


/-!
## `app/api/routes/leads.py`: duplicate detection and merge
-/

/-- The fields of an `app.models.Lead` row read by `find_duplicates`
(all non-nullable in the model). -/
structure DLead where
  id : Nat
  email : String
  full_name : String
  company_name : String
deriving DecidableEq, Repr

/-- `email.lower().split("@")[0]`. -/
def localPartStr (s : String) : String := strBefore '@' s

/-- The pairwise duplicate test of `find_duplicates`: exact email match,
or equal email local-part and full name, or equal full name and company. -/
def isDup (l1 l2 : DLead) : Bool :=
  (strLower l1.email == strLower l2.email) ||
  (localPartStr (strLower l1.email) == localPartStr (strLower l2.email) &&
    strLower l1.full_name == strLower l2.full_name) ||
  (strLower l1.full_name == strLower l2.full_name &&
    strLower l1.company_name == strLower l2.company_name)

/-- One step of the inner scan: skip already-processed leads, and add a
match to the group while marking it processed. -/
def dupScanStep (l1 : DLead) (acc : List DLead × List Nat) (l2 : DLead) :
    List DLead × List Nat :=
  if l2.id ∈ acc.2 then acc
  else if isDup l1 l2 then (acc.1 ++ [l2], l2.id :: acc.2)
  else acc

/-- The inner loop of `find_duplicates`: scan every later lead against the
group primary `l1`. -/
def dupScan (l1 : DLead) (rest : List DLead) (g : List DLead) (p : List Nat) :
    List DLead × List Nat :=
  rest.foldl (dupScanStep l1) (g, p)

/-- The outer loop of `find_duplicates`: each unprocessed lead starts a
group, groups of size 1 are discarded, and the primary is marked processed
only when its group is kept. -/
def findDupGroups : List DLead → List Nat → List (List DLead)
  | [], _ => []
  | l1 :: rest, processed =>
    if l1.id ∈ processed then findDupGroups rest processed
    else
      let res := dupScan l1 rest [l1] processed
      if 1 < res.1.length then res.1 :: findDupGroups rest (l1.id :: res.2)
      else findDupGroups rest res.2

/-- The `/leads/duplicates` endpoint: total group count, total duplicate
lead count, and the groups.  The `threshold` query parameter (validated to
[0, 1] by FastAPI) is accepted but never read by the matching or grouping
logic. -/
def find_duplicates (threshold : Rat) (leads : List DLead) :
    Nat × Nat × List (List DLead) :=
  let duplicates := findDupGroups leads []
  (duplicates.length, (duplicates.map List.length).sum, duplicates)

/-- C10: `find_duplicates` is independent of its threshold parameter — any
two in-range threshold values produce identical responses, because the
accepted argument is never read. -/
theorem C10_threshold_independent (leads : List DLead) (t1 t2 : Rat)
    (h1 : 0 ≤ t1) (h2 : t1 ≤ 1) (h3 : 0 ≤ t2) (h4 : t2 ≤ 1) :
    find_duplicates t1 leads = find_duplicates t2 leads := rfl

/-- Lead A of the C7 counterexample population. -/
def aLead : DLead :=
  { id := 1, email := "john@foo.com", full_name := "John Smith", company_name := "Alpha LLC" }

/-- Lead X: same email local part and full name as A, so A–X match by the
local-part rule. -/
def xLead : DLead :=
  { id := 2, email := "john@bar.com", full_name := "John Smith", company_name := "Beta LLC" }

/-- Lead Y: email equal to X up to case, but matching A by no rule. -/
def yLead : DLead :=
  { id := 3, email := "JOHN@bar.com", full_name := "Jane Doe", company_name := "Gamma LLC" }

/-- C10 witness: thresholds 0 and 1 on a concrete population. -/
theorem C10_witness :
    find_duplicates 0 [aLead, xLead, yLead] = find_duplicates 1 [aLead, xLead, yLead] :=
  C10_threshold_independent [aLead, xLead, yLead] 0 1 (by norm_num) (by norm_num)
    (by norm_num) (by norm_num)

/-- C7 counterexample: X and Y have equal emails after case normalization,
yet the scan puts X into the group of A (matched against the primary A by the
local-part rule) and leaves Y ungrouped, so the two email-equal leads are
not in the same duplicate group. -/
theorem C7_counterexample :
    strLower xLead.email = strLower yLead.email ∧
    (find_duplicates 0.8 [aLead, xLead, yLead]).2.2 = [[aLead, xLead]] ∧
    yLead ∉ [aLead, xLead] := by
  refine ⟨by decide, ?_, by decide⟩
  decide


/-- The inner scan only appends: group members are preserved. -/
theorem dupScan_grows (l1 : DLead) (rest : List DLead) :
    ∀ (g : List DLead) (p : List Nat) (x : DLead), x ∈ g → x ∈ (dupScan l1 rest g p).1 := by
  induction rest with
  | nil =>
    intro g p x hx
    simpa [dupScan] using hx
  | cons l2 rs ih =>
    intro g p x hx
    unfold dupScan
    rw [List.foldl_cons]
    unfold dupScanStep
    split_ifs with h1 h2
    · exact ih g p x hx
    · exact ih (g ++ [l2]) (l2.id :: p) x (List.mem_append_left _ hx)
    · exact ih g p x hx

/-- If `Y` occurs in the scanned suffix with an id unseen in `p` (ids of the
suffix being distinct) and matches the primary, the scan adds it to the
group. -/
theorem dupScan_reaches (l1 Y : DLead) :
    ∀ (rest : List DLead) (g : List DLead) (p : List Nat),
      Y ∈ rest → Y.id ∉ p → (rest.map (fun z => z.id)).Nodup → isDup l1 Y = true →
      Y ∈ (dupScan l1 rest g p).1 := by
  intro rest
  induction rest with
  | nil =>
    intro g p hmem
    cases hmem
  | cons l2 rs ih =>
    intro g p hmem hid hnd hdup
    unfold dupScan
    rw [List.foldl_cons]
    unfold dupScanStep
    rcases List.mem_cons.mp hmem with heq | hmem'
    · subst heq
      split_ifs with h1
      · exact absurd h1 hid
      · exact dupScan_grows l1 rs _ _ Y (List.mem_append_right _ (by simp))
    · have hl2 : l2.id ∉ rs.map (fun z => z.id) := (List.nodup_cons.mp hnd).1
      have hnd2 : (rs.map (fun z => z.id)).Nodup := (List.nodup_cons.mp hnd).2
      have hne : l2.id ≠ Y.id := by
        intro hc
        exact hl2 (hc ▸ List.mem_map_of_mem _ hmem')
      split_ifs with h1 h2
      · exact ih g p hmem' hid hnd2 hdup
      · refine ih (g ++ [l2]) (l2.id :: p) hmem' ?_ hnd2 hdup
        intro hc
        rcases List.mem_cons.mp hc with hc1 | hc2
        · exact hne hc1.symm
        · exact hid hc2
      · exact ih g p hmem' hid hnd2 hdup

/-- The scan result extends the starting group. -/
theorem dupScanExtends (l1 : DLead) :
    ∀ (rest : List DLead) (g : List DLead) (p : List Nat),
      ∃ tl, (dupScan l1 rest g p).1 = g ++ tl := by
  intro rest
  induction rest with
  | nil =>
    intro g p
    exact ⟨[], by simp [dupScan]⟩
  | cons l2 rs ih =>
    intro g p
    unfold dupScan
    rw [List.foldl_cons]
    unfold dupScanStep
    split_ifs with h1 h2
    · exact ih g p
    · obtain ⟨tl, htl⟩ := ih (g ++ [l2]) (l2.id :: p)
      refine ⟨l2 :: tl, ?_⟩
      show (dupScan l1 rs (g ++ [l2]) (l2.id :: p)).1 = g ++ l2 :: tl
      rw [htl]
      simp
    · exact ih g p

/-- C7 (amended): two leads with equal case-normalized emails end up in the
same duplicate group provided the earlier of the two is the primary of its
scan — in particular whenever it is the first element of the population
(ids distinct).  Unconditionally over the rest of the population the claim
fails, because matching is only against the primary of each group
(see the counterexample). -/
theorem C7_email_equal_grouped_with_head (X Y : DLead) (rest : List DLead) (t : Rat)
    (hnd : ((X :: rest).map (fun z => z.id)).Nodup)
    (hmem : Y ∈ rest)
    (hemail : strLower X.email = strLower Y.email) :
    ∃ g ∈ (find_duplicates t (X :: rest)).2.2, X ∈ g ∧ Y ∈ g := by
  have hdup : isDup X Y = true := by
    unfold isDup
    simp [hemail]
  have hXid : X.id ∉ rest.map (fun z => z.id) := (List.nodup_cons.mp hnd).1
  have hndr : (rest.map (fun z => z.id)).Nodup := (List.nodup_cons.mp hnd).2
  have hYX : Y ≠ X := by
    intro hc
    exact hXid (hc ▸ List.mem_map_of_mem _ hmem)
  unfold find_duplicates
  dsimp only
  unfold findDupGroups
  rw [if_neg (List.not_mem_nil X.id)]
  dsimp only
  have hXin : X ∈ (dupScan X rest [X] []).1 := dupScan_grows X rest [X] [] X (by simp)
  have hYin : Y ∈ (dupScan X rest [X] []).1 :=
    dupScan_reaches X Y rest [X] [] hmem (by simp) hndr hdup
  have hlen : 1 < (dupScan X rest [X] []).1.length := by
    obtain ⟨tl, htl⟩ := dupScanExtends X rest [X] []
    have hYtl : Y ∈ tl := by
      rw [htl] at hYin
      rcases List.mem_append.mp hYin with h | h
      · exact absurd (List.mem_singleton.mp h) hYX
      · exact h
    rw [htl]
    have : 0 < tl.length := List.length_pos.mpr (List.ne_nil_of_mem hYtl)
    simp only [List.length_append, List.length_singleton]
    omega
  rw [if_pos hlen]
  exact ⟨(dupScan X rest [X] []).1, List.mem_cons_self _ _, hXin, hYin⟩

/-- C7 witness: the two-lead population [X, Y]. -/
theorem C7_witness :
    ∃ g ∈ (find_duplicates 0.8 [xLead, yLead]).2.2, xLead ∈ g ∧ yLead ∈ g :=
  C7_email_equal_grouped_with_head xLead yLead [yLead] 0.8 (by decide) (by decide) (by decide)


/-- Errors of the merge endpoint: HTTP 400 for an unparseable keep id,
HTTP 404 for a missing keep lead. -/
inductive MergeErr where
  | invalidFormat
  | notFound
deriving DecidableEq, Repr

/-- The success payload of the merge endpoint. -/
structure MergeResult where
  kept_lead_id : String
  deleted_count : Nat
deriving DecidableEq, Repr

/-- One iteration of the delete loop of `merge_duplicates`: an unparseable
id is skipped (`except ValueError: continue`), the keep id is skipped, a
present id is deleted and counted, a missing id is skipped. -/
def mergeStep (parse : String → Option Nat) (keep : Nat)
    (acc : List Nat × Nat) (dup_id : String) : List Nat × Nat :=
  match parse dup_id with
  | none => acc
  | some d =>
    if d = keep then acc
    else if d ∈ acc.1 then (acc.1.erase d, acc.2 + 1)
    else acc

/-- `merge_duplicates(request)`: parse the keep id (400 on failure), check
it exists (404 otherwise), then run the delete loop over the duplicate ids
and commit.  `parse` abstracts `UUID(...)` parsing; the database is the
list of existing lead ids. -/
def merge_duplicates (parse : String → Option Nat) (db : List Nat)
    (keep_lead_id : String) (duplicate_ids : List String) :
    Except MergeErr (List Nat × MergeResult) :=
  match parse keep_lead_id with
  | none => .error .invalidFormat
  | some keep =>
    if keep ∈ db then
      let res := duplicate_ids.foldl (mergeStep parse keep) (db, 0)
      .ok (res.1, { kept_lead_id := keep_lead_id, deleted_count := res.2 })
    else .error .notFound

/-- Characterization of the delete loop: starting from a duplicate-free id
list, the final list keeps exactly the ids that are not a parsed,
non-keep duplicate target; the count equals the number of deletions. -/
theorem mergeFold_spec (parse : String → Option Nat) (keep : Nat) :
    ∀ (dups : List String) (d : List Nat) (c : Nat), d.Nodup →
      (∀ u, u ∈ (dups.foldl (mergeStep parse keep) (d, c)).1 ↔
        u ∈ d ∧ ¬(u ≠ keep ∧ ∃ s ∈ dups, parse s = some u)) ∧
      (dups.foldl (mergeStep parse keep) (d, c)).1.Nodup ∧
      (dups.foldl (mergeStep parse keep) (d, c)).1.length +
        (dups.foldl (mergeStep parse keep) (d, c)).2 = d.length + c := by
  intro dups
  induction dups with
  | nil =>
    intro d c hnd
    refine ⟨fun u => ?_, hnd, rfl⟩
    simp
  | cons s rest ih =>
    intro d c hnd
    rw [List.foldl_cons]
    cases hp : parse s with
    | none =>
      have hstep : mergeStep parse keep (d, c) s = (d, c) := by
        unfold mergeStep
        rw [hp]
      rw [hstep]
      obtain ⟨hmem, hnd2, hlen⟩ := ih d c hnd
      refine ⟨fun u => ?_, hnd2, hlen⟩
      rw [hmem u]
      constructor
      · rintro ⟨hu, hn⟩
        refine ⟨hu, ?_⟩
        rintro ⟨hne, s2, hs2, hp2⟩
        rcases List.mem_cons.mp hs2 with rfl | h
        · rw [hp] at hp2
          cases hp2
        · exact hn ⟨hne, s2, h, hp2⟩
      · rintro ⟨hu, hn⟩
        exact ⟨hu, fun hc => hn ⟨hc.1, hc.2.choose,
          List.mem_cons_of_mem _ hc.2.choose_spec.1, hc.2.choose_spec.2⟩⟩
    | some d0 =>
      by_cases hk : d0 = keep
      · subst hk
        have hstep : mergeStep parse d0 (d, c) s = (d, c) := by
          unfold mergeStep
          rw [hp]
          simp
        rw [hstep]
        obtain ⟨hmem, hnd2, hlen⟩ := ih d c hnd
        refine ⟨fun u => ?_, hnd2, hlen⟩
        rw [hmem u]
        constructor
        · rintro ⟨hu, hn⟩
          refine ⟨hu, ?_⟩
          rintro ⟨hne, s2, hs2, hp2⟩
          rcases List.mem_cons.mp hs2 with rfl | h
          · rw [hp] at hp2
            injection hp2 with hh
            exact hne hh.symm
          · exact hn ⟨hne, s2, h, hp2⟩
        · rintro ⟨hu, hn⟩
          refine ⟨hu, ?_⟩
          rintro ⟨hne, s2, hs2, hp2⟩
          exact hn ⟨hne, s2, List.mem_cons_of_mem _ hs2, hp2⟩
      · by_cases hd : d0 ∈ d
        · have hstep : mergeStep parse keep (d, c) s = (d.erase d0, c + 1) := by
            unfold mergeStep
            rw [hp]
            simp [hk, hd]
          rw [hstep]
          obtain ⟨hmem, hnd2, hlen⟩ := ih (d.erase d0) (c + 1) (hnd.erase d0)
          refine ⟨fun u => ?_, hnd2, ?_⟩
          · rw [hmem u, hnd.mem_erase_iff]
            constructor
            · rintro ⟨⟨hud0, hu⟩, hn⟩
              refine ⟨hu, ?_⟩
              rintro ⟨hne, s2, hs2, hp2⟩
              rcases List.mem_cons.mp hs2 with rfl | h
              · rw [hp] at hp2
                injection hp2 with hh
                exact hud0 hh.symm
              · exact hn ⟨hne, s2, h, hp2⟩
            · rintro ⟨hu, hn⟩
              have hud0 : u ≠ d0 := by
                rintro rfl
                exact hn ⟨hk, s, List.mem_cons_self _ _, hp⟩
              refine ⟨⟨hud0, hu⟩, ?_⟩
              rintro ⟨hne, s2, hs2, hp2⟩
              exact hn ⟨hne, s2, List.mem_cons_of_mem _ hs2, hp2⟩
          · have he : (d.erase d0).length = d.length - 1 := List.length_erase_of_mem hd
            have hpos : 0 < d.length := List.length_pos.mpr (List.ne_nil_of_mem hd)
            omega
        · have hstep : mergeStep parse keep (d, c) s = (d, c) := by
            unfold mergeStep
            rw [hp]
            simp [hk, hd]
          rw [hstep]
          obtain ⟨hmem, hnd2, hlen⟩ := ih d c hnd
          refine ⟨fun u => ?_, hnd2, hlen⟩
          rw [hmem u]
          constructor
          · rintro ⟨hu, hn⟩
            refine ⟨hu, ?_⟩
            rintro ⟨hne, s2, hs2, hp2⟩
            rcases List.mem_cons.mp hs2 with rfl | h
            · rw [hp] at hp2
              injection hp2 with hh
              exact hd (hh ▸ hu)
            · exact hn ⟨hne, s2, h, hp2⟩
          · rintro ⟨hu, hn⟩
            exact ⟨hu, fun hc => hn ⟨hc.1, hc.2.choose,
              List.mem_cons_of_mem _ hc.2.choose_spec.1, hc.2.choose_spec.2⟩⟩

/-- C6: with an existing keep id, the merge never errors: every duplicate
id that fails to parse, is missing, or equals the keep id is silently
skipped, each parsed distinct existing id is deleted exactly once and
counted, and the response reports the keep id.  A keep id that does not
exist yields a not-found error with no deletions.  In particular
`merge_duplicates(keep, [invalid_id, keep])` returns `deleted_count = 0`
without raising. -/
theorem C6_merge_duplicates_contract (parse : String → Option Nat) (db : List Nat)
    (ks : String) (k : Nat) (dups : List String) (hnd : db.Nodup) :
    (parse ks = some k → k ∈ db →
      ∃ (db2 : List Nat) (cnt : Nat),
        merge_duplicates parse db ks dups =
          .ok (db2, { kept_lead_id := ks, deleted_count := cnt }) ∧
        (∀ u, u ∈ db2 ↔ u ∈ db ∧ ¬(u ≠ k ∧ ∃ s ∈ dups, parse s = some u)) ∧
        db2.length + cnt = db.length) ∧
    (parse ks = some k → k ∉ db →
      merge_duplicates parse db ks dups = .error .notFound) ∧
    (∀ inv : String, parse ks = some k → k ∈ db → parse inv = none →
      merge_duplicates parse db ks [inv, ks] =
        .ok (db, { kept_lead_id := ks, deleted_count := 0 })) := by
  refine ⟨?_, ?_, ?_⟩
  · intro hks hk
    obtain ⟨hmem, hnd2, hlen⟩ := mergeFold_spec parse k dups db 0 hnd
    refine ⟨(dups.foldl (mergeStep parse k) (db, 0)).1,
      (dups.foldl (mergeStep parse k) (db, 0)).2, ?_, hmem, by omega⟩
    unfold merge_duplicates
    rw [hks]
    simp [hk]
  · intro hks hk
    unfold merge_duplicates
    rw [hks]
    simp [hk]
  · intro inv hks hk hinv
    unfold merge_duplicates
    rw [hks]
    simp only [hk, if_true]
    have h1 : mergeStep parse k (db, 0) inv = (db, 0) := by
      unfold mergeStep
      rw [hinv]
    have h2 : mergeStep parse k (db, 0) ks = (db, 0) := by
      unfold mergeStep
      rw [hks]
      simp
    rw [List.foldl_cons, h1, List.foldl_cons, h2, List.foldl_nil]

/-- A concrete id parser for the C6 witness. -/
def parseW : String → Option Nat :=
  fun s => if s = "k" then some 1 else if s = "d" then some 2 else none

/-- C6 witness: keep id "k" (lead 1) over ids [1, 2, 3]; the duplicates
["bogus", "k", "d"] delete exactly lead 2, and ["bogus", "k"] delete
nothing. -/
theorem C6_witness :
    (∃ (db2 : List Nat) (cnt : Nat),
      merge_duplicates parseW [1, 2, 3] "k" ["bogus", "k", "d"] =
        .ok (db2, { kept_lead_id := "k", deleted_count := cnt }) ∧
      (∀ u, u ∈ db2 ↔ u ∈ [1, 2, 3] ∧
        ¬(u ≠ 1 ∧ ∃ s ∈ ["bogus", "k", "d"], parseW s = some u)) ∧
      db2.length + cnt = ([1, 2, 3] : List Nat).length) ∧
    merge_duplicates parseW [1, 2, 3] "k" ["bogus", "k"] =
      .ok ([1, 2, 3], { kept_lead_id := "k", deleted_count := 0 }) :=
  ⟨(C6_merge_duplicates_contract parseW [1, 2, 3] "k" 1 ["bogus", "k", "d"]
      (by decide)).1 (by decide) (by decide),
   (C6_merge_duplicates_contract parseW [1, 2, 3] "k" 1 []
      (by decide)).2.2 "bogus" (by decide) (by decide) (by decide)⟩


/-!
## `services/lead_scoring.py`: `calculate_overall_score`

The factors dict is keyed by the seven Python strings used in
`buildFactors` below; the weighted-sum comprehension filters
`ScoringFactor` members by `factor.name.lower() in factors` but then
indexes the dict with `factor.value` — a float.  The seven factor scores
are parameters of the embedding: each `calculate_*_score` subroutine
always returns some float for its key, and the failing lookup is reached
for every possible combination of values, so their internal computation
never affects the claim.
-/

/-- A Python dict key as used in `calculate_overall_score`: either a
string or a float. -/
inductive PyKey where
  | s : String → PyKey
  | f : Rat → PyKey
deriving DecidableEq

/-- The `ScoringFactor` enum members, in declaration order, as
(name, value) pairs. -/
def scoringFactorMembers : List (String × Rat) :=
  [("COMPANY_SIZE", 0.25), ("REVENUE", 0.20), ("INDUSTRY", 0.15),
   ("CONTACT_QUALITY", 0.15), ("LOCATION", 0.10), ("WEBSITE_PRESENCE", 0.05),
   ("SOCIAL_PRESENCE", 0.05), ("RECENCY", 0.05)]

/-- The `factors` dict as built by `calculate_overall_score` (insertion
order of the source), with the seven subroutine scores as parameters. -/
def buildFactors (cs rv ind cq loc dp rc : Rat) : List (PyKey × Rat) :=
  [(.s "company_size", cs), (.s "revenue", rv), (.s "industry", ind),
   (.s "contact_quality", cq), (.s "location", loc), (.s "digital_presence", dp),
   (.s "recency", rc)]

/-- Python `key in dict`. -/
def dictHasKey (d : List (PyKey × Rat)) (k : PyKey) : Bool :=
  d.any (fun e => decide (e.1 = k))

/-- Python `dict[key]`, `none` meaning `KeyError`. -/
def dictGet (d : List (PyKey × Rat)) (k : PyKey) : Option Rat :=
  (d.find? (fun e => decide (e.1 = k))).map (fun e => e.2)

/-- The weighted-sum generator of `calculate_overall_score`:
`sum(factors[factor.value] * factor.value for factor in ScoringFactor
if factor.name.lower() in factors)`; evaluation aborts at the first
`KeyError`. -/
def weightedOverallScore (factors : List (PyKey × Rat)) : Except PyExn Rat :=
  scoringFactorMembers.foldlM
    (fun acc m =>
      if dictHasKey factors (.s (strLower m.1)) then
        match dictGet factors (.f m.2) with
        | some v => pure (acc + v * m.2)
        | none => .error .keyError
      else pure acc)
    0

/-- `calculate_overall_score(lead_data)` up to its first failure point:
build the factors dict from the seven subroutine scores, then run the
weighted sum (everything after the sum — conversion probability, grade,
risk factors, `LeadScore` construction — is unreachable). -/
def calculate_overall_score (cs rv ind cq loc dp rc : Rat) : Except PyExn Rat :=
  weightedOverallScore (buildFactors cs rv ind cq loc dp rc)

/-- `score_lead(lead_data)` delegates to `calculate_overall_score` on the module-level engine. -/
def score_lead (cs rv ind cq loc dp rc : Rat) : Except PyExn Rat :=
  calculate_overall_score cs rv ind cq loc dp rc

/-- C9: for every combination of factor scores, `calculate_overall_score`
raises `KeyError` instead of returning a `LeadScore` — the first enum
member passing the name filter (`COMPANY_SIZE`, whose lowered name is
always a key) indexes the string-keyed dict with the float `0.25`, which
is never a key — and therefore the public `score_lead` of the module raises
too. -/
theorem C9_overall_score_keyerror (cs rv ind cq loc dp rc : Rat) :
    calculate_overall_score cs rv ind cq loc dp rc = .error .keyError ∧
    score_lead cs rv ind cq loc dp rc = .error .keyError :=
  ⟨rfl, rfl⟩


/-- C5 witness: the status characterization at concrete scores. -/
theorem C5_witness :
    determine_validation_status 0.9 [] = .validated ∧
    determine_validation_status 0.7 ["Invalid email format"] = .needs_review ∧
    determine_validation_status 0.5 [] = .rejected :=
  ⟨((C5_validate_score_and_status.2 0.9 []).1).mpr ⟨by norm_num, rfl⟩,
   ((C5_validate_score_and_status.2 0.7 ["Invalid email format"]).2.1).mpr
     ⟨by norm_num, fun hc => by
        have h := hc.2
        exact absurd h (by decide)⟩,
   ((C5_validate_score_and_status.2 0.5 []).2.2).mpr (by norm_num)⟩

/-- C9 witness: the `KeyError` at one concrete combination of factor
scores. -/
theorem C9_witness :
    calculate_overall_score 0.5 0.5 0.6 0.5 0.6 0.5 0.7 = .error .keyError :=
  (C9_overall_score_keyerror 0.5 0.5 0.6 0.5 0.6 0.5 0.7).1
